import Mathlib

/-!
Shallow embedding of the redaction-detection and text-recovery logic of the
`unredact_Uber` repository (`find_improper_redactions.py`,
`detect_and_recover_redactions.py`, `redact_extract_optimized.py`,
`test_box_text_overlap.py`).  Page coordinates, colors and sizes are modelled
as rationals; the Python floats are treated as exact rational arithmetic.
-/

/-- A bounding box `(x0, y0, x1, y1)` with `y` increasing downward — the
tuple/dict shape used throughout the Python sources. -/
structure Rect where
  x0 : ℚ
  y0 : ℚ
  x1 : ℚ
  y1 : ℚ
deriving DecidableEq

/-- Signed area `(x1 - x0) * (y1 - y0)` of a rectangle. -/
def rectArea (r : Rect) : ℚ := (r.x1 - r.x0) * (r.y1 - r.y0)

/-- Geometric area of the intersection of two rectangles (0 when they are
disjoint or degenerate). -/
def interArea (a b : Rect) : ℚ :=
  max 0 (min a.x1 b.x1 - max a.x0 b.x0) * max 0 (min a.y1 b.y1 - max a.y0 b.y0)

/-- Two rectangles are disjoint when their intersection has empty interior. -/
def RectDisjoint (a b : Rect) : Prop :=
  min a.x1 b.x1 ≤ max a.x0 b.x0 ∨ min a.y1 b.y1 ≤ max a.y0 b.y0

/-- `inner` lies fully inside `outer`. -/
def RectContains (outer inner : Rect) : Prop :=
  outer.x0 ≤ inner.x0 ∧ inner.x1 ≤ outer.x1 ∧
  outer.y0 ≤ inner.y0 ∧ inner.y1 ≤ outer.y1

instance (a b : Rect) : Decidable (RectDisjoint a b) := by
  unfold RectDisjoint; infer_instance

instance (outer inner : Rect) : Decidable (RectContains outer inner) := by
  unfold RectContains; infer_instance

/-- `boxes_overlap` of `find_improper_redactions.py` (lines 49-61) and of
`test_box_text_overlap.py` (lines 66-91): the two copies have identical
bodies and differ only in their default threshold (0.3 vs 0.5), which is an
explicit parameter here.  `box2` is the glyph/char rectangle at every call
site. -/
def boxes_overlap (box1 box2 : Rect) (threshold : ℚ) : Bool :=
  let x0_i := max box1.x0 box2.x0
  let y0_i := max box1.y0 box2.y0
  let x1_i := min box1.x1 box2.x1
  let y1_i := min box1.y1 box2.y1
  if x0_i ≥ x1_i ∨ y0_i ≥ y1_i then false
  else
    let intersection := (x1_i - x0_i) * (y1_i - y0_i)
    let char_area := (box2.x1 - box2.x0) * (box2.y1 - box2.y0)
    if char_area > 0 then decide (intersection / char_area ≥ threshold)
    else false

/-- The quotient that `boxes_overlap` compares against its threshold
(`intersection / char_area`, the denominator being the SECOND argument's
area), with the value 0 in the branches where the code returns `False`
unconditionally. -/
def overlapRatioFir (box1 box2 : Rect) : ℚ :=
  let x0_i := max box1.x0 box2.x0
  let y0_i := max box1.y0 box2.y0
  let x1_i := min box1.x1 box2.x1
  let y1_i := min box1.y1 box2.y1
  if x0_i ≥ x1_i ∨ y0_i ≥ y1_i then 0
  else
    let intersection := (x1_i - x0_i) * (y1_i - y0_i)
    let char_area := (box2.x1 - box2.x0) * (box2.y1 - box2.y0)
    if char_area > 0 then intersection / char_area
    else 0

/-- `rectangles_overlap` of `detect_and_recover_redactions.py` (lines
118-144).  Its denominator is `bbox1_area`, the FIRST argument's area; the
call site (line 100) passes the char bbox as `bbox1`. -/
def rectangles_overlap (bbox1 bbox2 : Rect) (threshold : ℚ) : Bool :=
  let x0_i := max bbox1.x0 bbox2.x0
  let y0_i := max bbox1.y0 bbox2.y0
  let x1_i := min bbox1.x1 bbox2.x1
  let y1_i := min bbox1.y1 bbox2.y1
  if x0_i ≥ x1_i ∨ y0_i ≥ y1_i then false
  else
    let intersection_area := (x1_i - x0_i) * (y1_i - y0_i)
    let bbox1_area := (bbox1.x1 - bbox1.x0) * (bbox1.y1 - bbox1.y0)
    if bbox1_area = 0 then false
    else decide (intersection_area / bbox1_area ≥ threshold)

/-- The quotient that `rectangles_overlap` compares against its threshold
(`intersection_area / bbox1_area`, the denominator being the FIRST
argument's area), 0 where the code returns `False` unconditionally. -/
def overlapRatioDar (bbox1 bbox2 : Rect) : ℚ :=
  let x0_i := max bbox1.x0 bbox2.x0
  let y0_i := max bbox1.y0 bbox2.y0
  let x1_i := min bbox1.x1 bbox2.x1
  let y1_i := min bbox1.y1 bbox2.y1
  if x0_i ≥ x1_i ∨ y0_i ≥ y1_i then 0
  else
    let intersection_area := (x1_i - x0_i) * (y1_i - y0_i)
    let bbox1_area := (bbox1.x1 - bbox1.x0) * (bbox1.y1 - bbox1.y0)
    if bbox1_area = 0 then 0
    else intersection_area / bbox1_area

/-- When two rectangles are not disjoint, both have positive extent in both
dimensions; in particular both areas are positive. -/
lemma extent_pos_of_not_disjoint {a b : Rect}
    (hx : max a.x0 b.x0 < min a.x1 b.x1) (hy : max a.y0 b.y0 < min a.y1 b.y1) :
    b.x0 < b.x1 ∧ b.y0 < b.y1 ∧ a.x0 < a.x1 ∧ a.y0 < a.y1 := by
  refine ⟨?_, ?_, ?_, ?_⟩
  · exact lt_of_le_of_lt (le_max_right _ _) (lt_of_lt_of_le hx (min_le_right _ _))
  · exact lt_of_le_of_lt (le_max_right _ _) (lt_of_lt_of_le hy (min_le_right _ _))
  · exact lt_of_le_of_lt (le_max_left _ _) (lt_of_lt_of_le hx (min_le_left _ _))
  · exact lt_of_le_of_lt (le_max_left _ _) (lt_of_lt_of_le hy (min_le_left _ _))

/-- The ratio underlying `boxes_overlap` is the intersection area divided by
the second argument's area. -/
lemma overlapRatioFir_eq (a b : Rect) :
    overlapRatioFir a b = interArea a b / rectArea b := by
  unfold overlapRatioFir interArea rectArea
  by_cases h : max a.x0 b.x0 ≥ min a.x1 b.x1 ∨ max a.y0 b.y0 ≥ min a.y1 b.y1
  · rw [if_pos h]
    rcases h with h | h
    · rw [show max (0 : ℚ) (min a.x1 b.x1 - max a.x0 b.x0) = 0 from
        max_eq_left (by linarith), zero_mul, zero_div]
    · rw [show max (0 : ℚ) (min a.y1 b.y1 - max a.y0 b.y0) = 0 from
        max_eq_left (by linarith), mul_zero, zero_div]
  · rw [if_neg h]
    push_neg at h
    obtain ⟨hbx, hby, _, _⟩ := extent_pos_of_not_disjoint h.1 h.2
    have harea : (b.x1 - b.x0) * (b.y1 - b.y0) > 0 :=
      mul_pos (by linarith) (by linarith)
    rw [if_pos harea,
      show max (0 : ℚ) (min a.x1 b.x1 - max a.x0 b.x0) = min a.x1 b.x1 - max a.x0 b.x0 from
        max_eq_right (by linarith [h.1]),
      show max (0 : ℚ) (min a.y1 b.y1 - max a.y0 b.y0) = min a.y1 b.y1 - max a.y0 b.y0 from
        max_eq_right (by linarith [h.2])]

/-- The ratio underlying `rectangles_overlap` is the intersection area
divided by the FIRST argument's area. -/
lemma overlapRatioDar_eq (a b : Rect) :
    overlapRatioDar a b = interArea a b / rectArea a := by
  unfold overlapRatioDar interArea rectArea
  by_cases h : max a.x0 b.x0 ≥ min a.x1 b.x1 ∨ max a.y0 b.y0 ≥ min a.y1 b.y1
  · rw [if_pos h]
    rcases h with h | h
    · rw [show max (0 : ℚ) (min a.x1 b.x1 - max a.x0 b.x0) = 0 from
        max_eq_left (by linarith), zero_mul, zero_div]
    · rw [show max (0 : ℚ) (min a.y1 b.y1 - max a.y0 b.y0) = 0 from
        max_eq_left (by linarith), mul_zero, zero_div]
  · rw [if_neg h]
    push_neg at h
    obtain ⟨_, _, hax, hay⟩ := extent_pos_of_not_disjoint h.1 h.2
    have harea : (a.x1 - a.x0) * (a.y1 - a.y0) ≠ 0 :=
      ne_of_gt (mul_pos (by linarith) (by linarith))
    rw [if_neg harea,
      show max (0 : ℚ) (min a.x1 b.x1 - max a.x0 b.x0) = min a.x1 b.x1 - max a.x0 b.x0 from
        max_eq_right (by linarith [h.1]),
      show max (0 : ℚ) (min a.y1 b.y1 - max a.y0 b.y0) = min a.y1 b.y1 - max a.y0 b.y0 from
        max_eq_right (by linarith [h.2])]

/-- Disjoint rectangles have intersection area 0. -/
lemma interArea_of_disjoint {a b : Rect} (h : RectDisjoint a b) :
    interArea a b = 0 := by
  unfold interArea
  rcases h with h | h
  · rw [show max (0 : ℚ) (min a.x1 b.x1 - max a.x0 b.x0) = 0 from
      max_eq_left (by linarith), zero_mul]
  · rw [show max (0 : ℚ) (min a.y1 b.y1 - max a.y0 b.y0) = 0 from
      max_eq_left (by linarith), mul_zero]

/-- For a positive threshold, `boxes_overlap` holds exactly when the
underlying ratio reaches the threshold. -/
lemma boxes_overlap_iff (a b : Rect) {t : ℚ} (ht : 0 < t) :
    boxes_overlap a b t = true ↔ t ≤ overlapRatioFir a b := by
  unfold boxes_overlap overlapRatioFir
  by_cases h : max a.x0 b.x0 ≥ min a.x1 b.x1 ∨ max a.y0 b.y0 ≥ min a.y1 b.y1
  · rw [if_pos h, if_pos h]
    simp only [Bool.false_eq_true, false_iff, not_le]
    exact ht
  · rw [if_neg h, if_neg h]
    push_neg at h
    obtain ⟨hbx, hby, _, _⟩ := extent_pos_of_not_disjoint h.1 h.2
    have harea : (b.x1 - b.x0) * (b.y1 - b.y0) > 0 :=
      mul_pos (by linarith) (by linarith)
    rw [if_pos harea, if_pos harea]
    simp [ge_iff_le]

/-- C1 (counterexample): for `rectangles_overlap` of
`detect_and_recover_redactions.py` the denominator of the underlying ratio
is the FIRST argument's area, not the second's.  With `bbox1 = (0,0,1,1)`
inside `bbox2 = (0,0,2,2)` the code's ratio is 1, while intersection area
divided by the second argument's area is 1/4. -/
theorem C1_counterexample :
    overlapRatioDar ⟨0, 0, 1, 1⟩ ⟨0, 0, 2, 2⟩ ≠
      interArea ⟨0, 0, 1, 1⟩ ⟨0, 0, 2, 2⟩ / rectArea ⟨0, 0, 2, 2⟩ := by
  with_unfolding_all decide

/-- C1 (amended): the underlying overlap ratio is the intersection area
divided by the glyph rectangle's area — the SECOND argument's area for
`boxes_overlap` (`find_improper_redactions.py`), but the FIRST argument's
area for `rectangles_overlap` (`detect_and_recover_redactions.py`, whose
call site passes the glyph first); in both functions the ratio is 0
whenever the rectangles are disjoint or the denominator rectangle has zero
area. -/
theorem C1_overlap_ratio (a b : Rect) :
    overlapRatioFir a b = interArea a b / rectArea b ∧
    overlapRatioDar a b = interArea a b / rectArea a ∧
    (RectDisjoint a b ∨ rectArea b = 0 → overlapRatioFir a b = 0) ∧
    (RectDisjoint a b ∨ rectArea a = 0 → overlapRatioDar a b = 0) := by
  refine ⟨overlapRatioFir_eq a b, overlapRatioDar_eq a b, ?_, ?_⟩
  · rintro (h | h)
    · rw [overlapRatioFir_eq, interArea_of_disjoint h, zero_div]
    · rw [overlapRatioFir_eq, h, div_zero]
  · rintro (h | h)
    · rw [overlapRatioDar_eq, interArea_of_disjoint h, zero_div]
    · rw [overlapRatioDar_eq, h, div_zero]

/-- Witness for C1: the amended statement applied at concrete rectangles,
with the disjointness hypothesis discharged. -/
theorem C1_witness :
    overlapRatioFir ⟨0, 0, 2, 2⟩ ⟨1, 1, 3, 3⟩ =
      interArea ⟨0, 0, 2, 2⟩ ⟨1, 1, 3, 3⟩ / rectArea ⟨1, 1, 3, 3⟩ ∧
    overlapRatioFir ⟨0, 0, 1, 1⟩ ⟨5, 5, 6, 6⟩ = 0 :=
  ⟨(C1_overlap_ratio ⟨0, 0, 2, 2⟩ ⟨1, 1, 3, 3⟩).1,
   (C1_overlap_ratio ⟨0, 0, 1, 1⟩ ⟨5, 5, 6, 6⟩).2.2.1
     (Or.inl (by with_unfolding_all decide))⟩

/-- C5: the threshold comparison in `boxes_overlap` is inclusive (`>=`): a
glyph `b` whose overlap ratio with box `a` equals the threshold exactly is
a match for any threshold in (0,1]; and a positive-extent glyph rectangle
fully contained in the box has ratio 1 and matches at every threshold in
(0,1]. -/
theorem C5_threshold_inclusive (a b : Rect) (t : ℚ) (ht0 : 0 < t) (ht1 : t ≤ 1) :
    (overlapRatioFir a b = t → boxes_overlap a b t = true) ∧
    (RectContains a b → b.x0 < b.x1 → b.y0 < b.y1 →
      overlapRatioFir a b = 1 ∧ boxes_overlap a b t = true) := by
  constructor
  · intro hr
    rw [boxes_overlap_iff a b ht0, hr]
  · intro hc hx hy
    have hratio : overlapRatioFir a b = 1 := by
      rw [overlapRatioFir_eq]
      have h1 : min a.x1 b.x1 = b.x1 := min_eq_right hc.2.1
      have h2 : max a.x0 b.x0 = b.x0 := max_eq_right hc.1
      have h3 : min a.y1 b.y1 = b.y1 := min_eq_right hc.2.2.2
      have h4 : max a.y0 b.y0 = b.y0 := max_eq_right hc.2.2.1
      unfold interArea rectArea
      rw [h1, h2, h3, h4,
        show max (0 : ℚ) (b.x1 - b.x0) = b.x1 - b.x0 from max_eq_right (by linarith),
        show max (0 : ℚ) (b.y1 - b.y0) = b.y1 - b.y0 from max_eq_right (by linarith)]
      exact div_self (ne_of_gt (mul_pos (by linarith) (by linarith)))
    refine ⟨hratio, ?_⟩
    rw [boxes_overlap_iff a b ht0, hratio]
    exact ht1

/-- Witness for C5: a 1x1 glyph square contained in a 4x4 box, threshold
1/2. -/
theorem C5_witness :
    overlapRatioFir ⟨0, 0, 4, 4⟩ ⟨1, 1, 2, 2⟩ = 1 ∧
    boxes_overlap ⟨0, 0, 4, 4⟩ ⟨1, 1, 2, 2⟩ (1/2) = true :=
  (C5_threshold_inclusive ⟨0, 0, 4, 4⟩ ⟨1, 1, 2, 2⟩ (1/2) (by norm_num)
    (by norm_num)).2 (by with_unfolding_all decide)
    (by with_unfolding_all decide) (by with_unfolding_all decide)

/-- One record of the pdfplumber char stream (`page.chars`): `text`, `x0`,
`top`, `x1`, `bottom`. -/
structure CharRec where
  text : String
  x0 : ℚ
  top : ℚ
  x1 : ℚ
  bottom : ℚ
deriving DecidableEq

/-- One vector drawing of `page.get_drawings()`: its type tag (`"f"` marks
a filled path), optional fill color and optional bounding rect. -/
structure Drawing where
  dtype : String
  fill : Option (ℚ × ℚ × ℚ)
  rect : Option Rect
deriving DecidableEq

/-- One block of `page.get_text("dict")["blocks"]`: `type` (1 = image
block) and its bounding box (blocks of this API always carry a bbox). -/
structure Block where
  btype : ℕ
  bbox : Rect
deriving DecidableEq

/-- One page as seen through the two PDF libraries: the fitz drawings and
blocks, and the pdfplumber char stream; reading the char stream can raise,
modelled as `Except`. -/
structure PPage where
  drawings : List Drawing
  blocks : List Block
  chars : Except String (List CharRec)

/-- A document is its list of pages. -/
abbrev Document := List PPage

/-- Boxes emitted by `detect_black_rectangles` for page `page_num`: filled
paths (`type == 'f'`) with rect and fill color present whose color is dark
in all three channels, followed by every type-1 (image) block at its bbox
(`detect_and_recover_redactions.py` lines 25-52). -/
def detectPageBoxes (black_threshold : ℚ) (page_num : ℕ) (p : PPage) :
    List (ℕ × Rect) :=
  p.drawings.filterMap (fun drawing =>
    if drawing.dtype = "f" then
      match drawing.rect, drawing.fill with
      | some rect, some color =>
          if color.1 ≤ black_threshold ∧ color.2.1 ≤ black_threshold ∧
              color.2.2 ≤ black_threshold then
            some (page_num, rect)
          else none
      | _, _ => none
    else none)
  ++ p.blocks.filterMap (fun item =>
      if item.btype = 1 then some (page_num, item.bbox) else none)

/-- The page loop of `detect_black_rectangles`, carrying the page index. -/
def detectGo (black_threshold : ℚ) : List PPage → ℕ → List (ℕ × Rect)
  | [], _ => []
  | p :: ps, page_num =>
      detectPageBoxes black_threshold page_num p ++
        detectGo black_threshold ps (page_num + 1)

/-- `detect_black_rectangles` of `detect_and_recover_redactions.py` (lines
12-58); the default `black_threshold` is 0.15. -/
def detect_black_rectangles (doc : Document) (black_threshold : ℚ) :
    List (ℕ × Rect) :=
  detectGo black_threshold doc 0

/-- One recovered-char record `(page_num, text, char_bbox)` as appended by
`check_text_under_boxes`. -/
abbrev REntry := ℕ × String × Rect

/-- The page loop of `check_text_under_boxes`
(`detect_and_recover_redactions.py` lines 80-106): per char, the FIRST
box of the page that `rectangles_overlap`-matches its bbox yields one entry
(the inner loop breaks after the first match).  The `try` wraps the whole
loop, so a page whose char stream raises ends the loop with the entries
accumulated so far. -/
def checkGo (redaction_boxes : List (ℕ × Rect)) (overlap_threshold : ℚ) :
    List PPage → ℕ → List REntry
  | [], _ => []
  | p :: ps, page_num =>
    match p.chars with
    | .error _ => []
    | .ok chars =>
      let page_boxes := redaction_boxes.filter (fun box => box.1 == page_num)
      chars.filterMap (fun char =>
        let char_bbox : Rect := ⟨char.x0, char.top, char.x1, char.bottom⟩
        (page_boxes.find? (fun box =>
            rectangles_overlap char_bbox box.2 overlap_threshold)).map
          (fun _ => (page_num, char.text, char_bbox)))
      ++ checkGo redaction_boxes overlap_threshold ps (page_num + 1)

/-- `check_text_under_boxes` of `detect_and_recover_redactions.py` (lines
61-115): an empty box list short-circuits; the default threshold is 0.5;
the returned list's length is the code's `redacted_text_count`. -/
def check_text_under_boxes (doc : Document)
    (redaction_boxes : List (ℕ × Rect)) (overlap_threshold : ℚ) :
    List REntry :=
  if redaction_boxes.isEmpty then []
  else checkGo redaction_boxes overlap_threshold doc 0

/-- The fields of the `analyze_pdf_for_redactions` result record that the
logic computes (`path`, `filename` and `error` are I/O plumbing). -/
structure AnalysisResult where
  has_redaction_boxes : Bool
  has_recoverable_text : Bool
  redaction_box_count : ℕ
  redacted_char_count : ℕ
  should_process : Bool
deriving DecidableEq

/-- `analyze_pdf_for_redactions` of `detect_and_recover_redactions.py`
(lines 147-183): detect boxes (threshold 0.15); without boxes return the
zeroed record; otherwise count chars under boxes (threshold 0.5) and set
`should_process = has_redaction_boxes and has_recoverable_text`. -/
def analyze_pdf_for_redactions (doc : Document) : AnalysisResult :=
  let redaction_boxes := detect_black_rectangles doc (3/20)
  if 0 < redaction_boxes.length then
    let redacted := check_text_under_boxes doc redaction_boxes (1/2)
    { has_redaction_boxes := true
      has_recoverable_text := decide (0 < redacted.length)
      redaction_box_count := redaction_boxes.length
      redacted_char_count := redacted.length
      should_process := true && decide (0 < redacted.length) }
  else
    { has_redaction_boxes := false
      has_recoverable_text := false
      redaction_box_count := redaction_boxes.length
      redacted_char_count := 0
      should_process := false }

/-- One entry of `get_text_positions`: page index, char text, and the bbox
with pdfplumber's `top`/`bottom` renamed to `y0`/`y1`. -/
structure CharD where
  page : ℕ
  text : String
  rect : Rect
deriving DecidableEq

/-- The page loop of `get_text_positions` (`find_improper_redactions.py`
lines 29-46).  The `try` wraps the WHOLE loop: a page whose char stream
raises ends the loop and the chars accumulated so far are returned. -/
def getTextGo : List PPage → ℕ → List CharD
  | [], _ => []
  | p :: ps, page_num =>
    match p.chars with
    | .error _ => []
    | .ok chars =>
      chars.map (fun char =>
        ⟨page_num, char.text, ⟨char.x0, char.top, char.x1, char.bottom⟩⟩)
      ++ getTextGo ps (page_num + 1)

/-- `get_text_positions` of `find_improper_redactions.py` (lines 29-46). -/
def get_text_positions (doc : Document) : List CharD := getTextGo doc 0

/-- Modelled from the spec (§4.3/§7 and claim C6): per-page failure
isolation — an unreadable page contributes an empty glyph list and
extraction proceeds with the remaining pages of the document. -/
def getTextIsoGo : List PPage → ℕ → List CharD
  | [], _ => []
  | p :: ps, page_num =>
    (match p.chars with
     | .error _ => []
     | .ok chars =>
       chars.map (fun char =>
         ⟨page_num, char.text, ⟨char.x0, char.top, char.x1, char.bottom⟩⟩))
    ++ getTextIsoGo ps (page_num + 1)

/-- The spec's page-isolated glyph extraction (see `getTextIsoGo`). -/
def get_text_positions_isolated (doc : Document) : List CharD :=
  getTextIsoGo doc 0

/-- Whether reading the page's char stream succeeds. -/
def chars_ok (p : PPage) : Bool :=
  match p.chars with
  | .ok _ => true
  | .error _ => false

/-- The page's char records when readable, else the empty list. -/
def pageChars (p : PPage) : List CharRec :=
  match p.chars with
  | .ok cs => cs
  | .error _ => []

/-- Total glyph count of a document (chars of its readable pages). -/
def totalChars (doc : Document) : ℕ :=
  (doc.map (fun p => (pageChars p).length)).sum

/-- A type-1 block of a page is always among that page's emitted boxes. -/
lemma mem_detectPageBoxes_of_block {p : PPage} {blk : Block} (thr : ℚ)
    (n : ℕ) (hmem : blk ∈ p.blocks) (ht : blk.btype = 1) :
    (n, blk.bbox) ∈ detectPageBoxes thr n p := by
  unfold detectPageBoxes
  refine List.mem_append_right _ ?_
  exact List.mem_filterMap.mpr ⟨blk, hmem, by rw [if_pos ht]⟩

/-- A dark filled drawing of a page is among that page's emitted boxes. -/
lemma mem_detectPageBoxes_of_drawing {p : PPage} {d : Drawing} {r : Rect}
    {c : ℚ × ℚ × ℚ} (thr : ℚ) (n : ℕ) (hmem : d ∈ p.drawings)
    (hf : d.dtype = "f") (hr : d.rect = some r) (hc : d.fill = some c)
    (hdark : c.1 ≤ thr ∧ c.2.1 ≤ thr ∧ c.2.2 ≤ thr) :
    (n, r) ∈ detectPageBoxes thr n p := by
  unfold detectPageBoxes
  refine List.mem_append_left _ ?_
  refine List.mem_filterMap.mpr ⟨d, hmem, ?_⟩
  rw [if_pos hf, hr, hc]
  exact if_pos hdark

/-- Lifting per-page membership through the page loop of the detector. -/
lemma mem_detectGo_of_mem_page (thr : ℚ) (pages : List PPage) :
    ∀ (n i : ℕ) (h : i < pages.length) (b : Rect),
      (n + i, b) ∈ detectPageBoxes thr (n + i) (pages.get ⟨i, h⟩) →
      (n + i, b) ∈ detectGo thr pages n := by
  induction pages with
  | nil => intro n i h; cases h
  | cons p ps ih =>
    intro n i h b hmem
    cases i with
    | zero =>
      exact List.mem_append_left _ hmem
    | succ i =>
      refine List.mem_append_right _ ?_
      have hlt : i < ps.length := Nat.lt_of_succ_lt_succ h
      have heq : n + (i + 1) = (n + 1) + i := by omega
      have := ih (n + 1) i hlt b (by rw [← heq]; exact hmem)
      rw [heq]
      exact this

/-- C9: every type-1 (raster image) block of a page is emitted
unconditionally as a candidate redaction box at the block's bounding rect,
for any darkness threshold (its color is never examined); every filled
drawing whose fill passes the darkness test is emitted as well. -/
theorem C9_image_blocks (doc : Document) (thr : ℚ) (i : ℕ)
    (hi : i < doc.length) :
    (∀ blk ∈ (doc.get ⟨i, hi⟩).blocks, blk.btype = 1 →
      (i, blk.bbox) ∈ detect_black_rectangles doc thr) ∧
    (∀ d ∈ (doc.get ⟨i, hi⟩).drawings, ∀ r c, d.dtype = "f" →
      d.rect = some r → d.fill = some c →
      c.1 ≤ thr ∧ c.2.1 ≤ thr ∧ c.2.2 ≤ thr →
      (i, r) ∈ detect_black_rectangles doc thr) := by
  constructor
  · intro blk hmem ht
    have h0 : (0 + i, blk.bbox) ∈ detectGo thr doc 0 :=
      mem_detectGo_of_mem_page thr doc 0 i hi blk.bbox
        (by simpa using mem_detectPageBoxes_of_block thr (0 + i) hmem ht)
    simpa [detect_black_rectangles] using h0
  · intro d hmem r c hf hr hc hdark
    have h0 : (0 + i, r) ∈ detectGo thr doc 0 :=
      mem_detectGo_of_mem_page thr doc 0 i hi r
        (by simpa using
          mem_detectPageBoxes_of_drawing thr (0 + i) hmem hf hr hc hdark)
    simpa [detect_black_rectangles] using h0

/-- A one-page document with one image block (white, bright color) and one
dark filled drawing. -/
def docC9 : Document :=
  [⟨[⟨"f", some (0, 0, 0), some ⟨1, 2, 3, 4⟩⟩], [⟨1, ⟨5, 6, 7, 8⟩⟩],
    .ok []⟩]

/-- Witness for C9: both the image block and the dark drawing of the
concrete document are emitted. -/
theorem C9_witness :
    (0, (⟨5, 6, 7, 8⟩ : Rect)) ∈ detect_black_rectangles docC9 (3/20) ∧
    (0, (⟨1, 2, 3, 4⟩ : Rect)) ∈ detect_black_rectangles docC9 (3/20) := by
  have h := C9_image_blocks docC9 (3/20) 0 (by decide)
  exact ⟨h.1 ⟨1, ⟨5, 6, 7, 8⟩⟩ (by simp [docC9]) rfl,
         h.2 ⟨"f", some (0, 0, 0), some ⟨1, 2, 3, 4⟩⟩ (by simp [docC9])
           ⟨1, 2, 3, 4⟩ (0, 0, 0) rfl rfl rfl
           (by with_unfolding_all decide)⟩

/-- Each page contributes at most its own char count to the check loop. -/
lemma checkGo_length_le (boxes : List (ℕ × Rect)) (thr : ℚ) :
    ∀ (pages : List PPage) (n : ℕ),
      (checkGo boxes thr pages n).length ≤ totalChars pages := by
  intro pages
  induction pages with
  | nil => intro n; simp [checkGo, totalChars]
  | cons p ps ih =>
    intro n
    cases hc : p.chars with
    | error e =>
      simp [checkGo, hc, totalChars]
    | ok cs =>
      have hp : pageChars p = cs := by simp [pageChars, hc]
      simp only [checkGo, hc, totalChars, List.map_cons, List.sum_cons,
        List.length_append, hp]
      have h1 := List.length_filterMap_le
        (fun char : CharRec =>
          ((boxes.filter (fun box => box.1 == n)).find? (fun box =>
              rectangles_overlap ⟨char.x0, char.top, char.x1, char.bottom⟩
                box.2 thr)).map
            (fun _ => (n, char.text,
              (⟨char.x0, char.top, char.x1, char.bottom⟩ : Rect)))) cs
      have h2 := ih (n + 1)
      simp only [totalChars] at h2
      omega

/-- A one-page document with a single glyph lying under two overlapping
boxes. -/
def docC10 : Document := [⟨[], [], .ok [⟨"X", 0, 0, 1, 1⟩]⟩]

/-- C10: the scan verdict attributes each glyph to at most one redaction
box (the inner loop breaks at the first match), so `redacted_text_count`
never exceeds the document's total glyph count; concretely, one glyph under
two overlapping boxes is counted once. -/
theorem C10_char_count_bound :
    (∀ (doc : Document) (boxes : List (ℕ × Rect)) (thr : ℚ),
      (check_text_under_boxes doc boxes thr).length ≤ totalChars doc) ∧
    (check_text_under_boxes docC10
        [(0, ⟨0, 0, 2, 2⟩), (0, ⟨0, 0, 3, 3⟩)] (1/2)).length = 1 := by
  constructor
  · intro doc boxes thr
    unfold check_text_under_boxes
    split
    · simp
    · exact checkGo_length_le boxes thr doc 0
  · with_unfolding_all decide

/-- If no page has any readable char, the check loop finds nothing. -/
lemma checkGo_eq_nil_of_no_chars (boxes : List (ℕ × Rect)) (thr : ℚ) :
    ∀ (pages : List PPage) (n : ℕ), (∀ p ∈ pages, pageChars p = []) →
      checkGo boxes thr pages n = [] := by
  intro pages
  induction pages with
  | nil => intro n _; rfl
  | cons p ps ih =>
    intro n hall
    have h0 : pageChars p = [] := hall p (List.mem_cons_self p ps)
    cases hc : p.chars with
    | error e => simp [checkGo, hc]
    | ok cs =>
      have hnil : cs = [] := by simpa [pageChars, hc] using h0
      subst hnil
      simpa [checkGo, hc] using
        ih (n + 1) (fun q hq => hall q (List.mem_cons_of_mem p hq))

/-- C2: `should_process` holds iff the box count and the recovered char
count are both positive; and a document none of whose pages has a glyph
yields `has_recoverable_text = false` and `should_process = false` no
matter how many redaction boxes it has. -/
theorem C2_should_process (doc : Document) :
    ((analyze_pdf_for_redactions doc).should_process = true ↔
      0 < (analyze_pdf_for_redactions doc).redaction_box_count ∧
      0 < (analyze_pdf_for_redactions doc).redacted_char_count) ∧
    ((∀ p ∈ doc, pageChars p = []) →
      (analyze_pdf_for_redactions doc).has_recoverable_text = false ∧
      (analyze_pdf_for_redactions doc).should_process = false) := by
  constructor
  · simp only [analyze_pdf_for_redactions]
    by_cases h : 0 < (detect_black_rectangles doc (3/20)).length
    · simp [h]
    · simp [h]
  · intro hall
    have hnil : check_text_under_boxes doc
        (detect_black_rectangles doc (3/20)) (1/2) = [] := by
      unfold check_text_under_boxes
      split
      · rfl
      · exact checkGo_eq_nil_of_no_chars _ _ doc 0 hall
    simp only [analyze_pdf_for_redactions]
    by_cases h : 0 < (detect_black_rectangles doc (3/20)).length
    · rw [if_pos h]
      dsimp only
      rw [hnil]
      simp
    · simp [h]

/-- A one-page document with one dark redaction box and no glyph at all. -/
def docC2 : Document :=
  [⟨[⟨"f", some (0, 0, 0), some ⟨0, 0, 10, 10⟩⟩], [], .ok []⟩]

/-- Witness for C2: a box with no glyphs on its page is not processed. -/
theorem C2_witness :
    (analyze_pdf_for_redactions docC2).has_recoverable_text = false ∧
    (analyze_pdf_for_redactions docC2).should_process = false :=
  (C2_should_process docC2).2 (by with_unfolding_all decide)

/-- The glyph loop stops at the first failing page: everything before it is
kept, everything after it is dropped. -/
lemma getTextGo_stop (good : List PPage) :
    ∀ (n : ℕ) (bad : PPage) (rest : List PPage),
      (∀ p ∈ good, chars_ok p = true) → chars_ok bad = false →
      getTextGo (good ++ bad :: rest) n = getTextGo good n := by
  induction good with
  | nil =>
    intro n bad rest _ hbad
    cases hc : bad.chars with
    | error e => simp [getTextGo, hc]
    | ok cs => simp [chars_ok, hc] at hbad
  | cons p g ih =>
    intro n bad rest hall hbad
    have hp : chars_ok p = true := hall p (List.mem_cons_self p g)
    cases hc : p.chars with
    | error e => simp [chars_ok, hc] at hp
    | ok cs =>
      have hrec := ih (n + 1) bad rest
        (fun q hq => hall q (List.mem_cons_of_mem p hq)) hbad
      simp only [List.cons_append, getTextGo, hc, List.append_eq] at hrec ⊢
      rw [hrec]

/-- C6 (amended): glyph extraction never raises to its caller, but a page
failure is NOT isolated: since the `try` wraps the whole page loop,
extraction returns exactly the glyphs of the pages before the first failing
page, and all later pages contribute nothing. -/
theorem C6_page_failure (good : List PPage) (bad : PPage)
    (rest : List PPage) (hgood : ∀ p ∈ good, chars_ok p = true)
    (hbad : chars_ok bad = false) :
    get_text_positions (good ++ bad :: rest) = get_text_positions good := by
  unfold get_text_positions
  exact getTextGo_stop good 0 bad rest hgood hbad

/-- A readable page with one glyph `A`. -/
def pageA : PPage := ⟨[], [], .ok [⟨"A", 0, 0, 1, 1⟩]⟩

/-- A page whose char stream raises. -/
def pageBad : PPage := ⟨[], [], .error "page unreadable"⟩

/-- A readable page with one glyph `C`. -/
def pageC : PPage := ⟨[], [], .ok [⟨"C", 2, 0, 3, 1⟩]⟩

/-- Three pages: readable, failing, readable. -/
def docC6 : Document := [pageA, pageBad, pageC]

/-- C6 (counterexample): the code's glyph extraction differs from the
spec's page-isolated extraction — the failing middle page makes the last
page's glyph disappear instead of only the failing page's. -/
theorem C6_counterexample :
    get_text_positions docC6 ≠ get_text_positions_isolated docC6 := by
  with_unfolding_all decide

/-- Witness for C6: the amended statement applied to `docC6`'s split. -/
theorem C6_witness :
    get_text_positions ([pageA] ++ pageBad :: [pageC]) =
      get_text_positions [pageA] :=
  C6_page_failure [pageA] pageBad [pageC]
    (by with_unfolding_all decide) (by with_unfolding_all decide)

/-- A detected box record as consumed by `test_pdf`
(`find_improper_redactions.py`): page index and rect. -/
structure BoxD where
  page : ℕ
  rect : Rect
deriving DecidableEq

/-- The recovered text `test_pdf` (`find_improper_redactions.py` lines
74-85) attributes to one box: filter the char stream to the box's page,
keep the chars that `boxes_overlap` the box (default threshold 0.3), and
join their texts in place. -/
def test_pdf_recovered (box : BoxD) (text_chars : List CharD) : String :=
  let page_chars := text_chars.filter (fun c => c.page == box.page)
  let box_chars :=
    page_chars.filter (fun c => boxes_overlap box.rect c.rect (3/10))
  String.join (box_chars.map (fun c => c.text))

/-- Modelled from the spec's words (§4.4, claim C8): a single left-to-right
pass over the character stream in its original encounter order, appending
each matching glyph's text. -/
def recovered_text_spec (box : BoxD) (text_chars : List CharD) : String :=
  text_chars.foldl
    (fun acc c =>
      if c.page == box.page && boxes_overlap box.rect c.rect (3/10) then
        acc ++ c.text
      else acc) ""

/-- Shifting the accumulator out of a string-append fold. -/
lemma strFoldl_shift : ∀ (l : List String) (a : String),
    l.foldl (fun r s => r ++ s) a = a ++ l.foldl (fun r s => r ++ s) "" := by
  intro l
  induction l with
  | nil => intro a; simp [List.foldl_nil, String.append_empty]
  | cons s l ih =>
    intro a
    simp only [List.foldl_cons]
    rw [ih ("" ++ s), ih (a ++ s), String.empty_append, String.append_assoc]

/-- `String.join` distributes over `cons`. -/
lemma strJoin_cons (s : String) (l : List String) :
    String.join (s :: l) = s ++ String.join l := by
  unfold String.join
  simp only [List.foldl_cons, String.empty_append]
  exact strFoldl_shift l s

/-- The spec's fold and the code's filter-filter-map-join pipeline agree,
for every accumulator. -/
lemma test_pdf_recovered_foldl (box : BoxD) :
    ∀ (l : List CharD) (acc : String),
      l.foldl (fun acc c =>
        if c.page == box.page && boxes_overlap box.rect c.rect (3/10) then
          acc ++ c.text
        else acc) acc =
      acc ++ String.join
        (((l.filter (fun c => c.page == box.page)).filter
            (fun c => boxes_overlap box.rect c.rect (3/10))).map
          (fun c => c.text)) := by
  intro l
  induction l with
  | nil =>
    intro acc
    rw [List.foldl_nil, List.filter_nil, List.filter_nil, List.map_nil,
      show String.join [] = "" from rfl, String.append_empty]
  | cons c cs ih =>
    intro acc
    simp only [List.foldl_cons, List.filter_cons]
    by_cases h1 : (c.page == box.page) = true
    · rw [if_pos h1]
      simp only [List.filter_cons]
      by_cases h2 : boxes_overlap box.rect c.rect (3/10) = true
      · have hcomb : (c.page == box.page &&
            boxes_overlap box.rect c.rect (3/10)) = true := by
          rw [h1, h2]; rfl
        rw [if_pos hcomb, if_pos h2, List.map_cons, strJoin_cons,
          ih (acc ++ c.text), String.append_assoc]
      · rw [Bool.not_eq_true] at h2
        have hne1 : ¬((c.page == box.page &&
            boxes_overlap box.rect c.rect (3/10)) = true) := by
          rw [h2, Bool.and_false]; exact Bool.false_ne_true
        have hne2 : ¬(boxes_overlap box.rect c.rect (3/10) = true) := by
          rw [h2]; exact Bool.false_ne_true
        rw [if_neg hne1, if_neg hne2]
        exact ih acc
    · rw [Bool.not_eq_true] at h1
      have hne1 : ¬((c.page == box.page &&
          boxes_overlap box.rect c.rect (3/10)) = true) := by
        rw [h1, Bool.false_and]; exact Bool.false_ne_true
      have hne2 : ¬((c.page == box.page) = true) := by
        rw [h1]; exact Bool.false_ne_true
      rw [if_neg hne1, if_neg hne2]
      exact ih acc

/-- C8: the recovered text of a box is the concatenation of its matching
glyphs' texts in their original encounter order in the char stream (a
single in-order pass, no re-sorting); concretely, glyphs encountered in the
order `B` (x=6..7) then `A` (x=1..2) under one box recover as `"BA"`, not
the x-sorted `"AB"`. -/
theorem C8_encounter_order :
    (∀ (box : BoxD) (text_chars : List CharD),
      test_pdf_recovered box text_chars = recovered_text_spec box text_chars) ∧
    test_pdf_recovered ⟨0, ⟨0, 0, 10, 10⟩⟩
      [⟨0, "B", ⟨6, 0, 7, 1⟩⟩, ⟨0, "A", ⟨1, 0, 2, 1⟩⟩] = "BA" := by
  constructor
  · intro box chars
    simp only [test_pdf_recovered, recovered_text_spec]
    have h := test_pdf_recovered_foldl box chars ""
    rw [String.empty_append] at h
    exact h.symm
  · with_unfolding_all decide

/-- One word record of pdfplumber's `extract_words` as consumed by the
line reconstructor; `bottom` and `size` are read through `.get` fallbacks
in the code, so they are optional here. -/
structure Word where
  text : String
  x0 : ℚ
  x1 : ℚ
  top : ℚ
  bottom : Option ℚ
  size : Option ℚ
deriving DecidableEq

/-- Stable insertion of `x` into a `le`-sorted list: `x` lands after every
element `y` with `le y x`. -/
def insertSorted {α : Type} (le : α → α → Bool) (x : α) : List α → List α
  | [] => [x]
  | y :: ys => if le y x then y :: insertSorted le x ys else x :: y :: ys

/-- Stable sort by a Boolean total preorder — the behaviour of Python's
stable `sorted(..., key=...)` (structurally recursive so that concrete
inputs evaluate). -/
def sortBy {α : Type} (le : α → α → Bool) (l : List α) : List α :=
  l.foldl (fun acc x => insertSorted le x acc) []

/-- The `(top, x0)` lexicographic sort key of `group_words_into_lines`. -/
def wordLeTopX0 (a b : Word) : Bool :=
  decide (a.top < b.top) || (a.top == b.top && decide (a.x0 ≤ b.x0))

/-- The `x0` sort key of `build_line_text`. -/
def wordLeX0 (a b : Word) : Bool := decide (a.x0 ≤ b.x0)

/-- Ascending sort of rationals. -/
def sortQ (l : List ℚ) : List ℚ := sortBy (fun a b => decide (a ≤ b)) l

/-- The cluster walk of `group_words_into_lines`
(`redact_extract_optimized.py` lines 22-39): the current cluster and its
running-average `top`, updated incrementally exactly as in the code
(`current_top = (current_top * (len(current) - 1) + top) / len(current)`
after appending). -/
def groupGo (line_tol : ℚ) : List Word → List Word → ℚ → List (List Word)
  | [], current, _ => [current]
  | w :: ws, current, current_top =>
    if |w.top - current_top| ≤ line_tol then
      let cur := current ++ [w]
      groupGo line_tol ws cur
        ((current_top * ((cur.length : ℚ) - 1) + w.top) / (cur.length : ℚ))
    else
      current :: groupGo line_tol ws [w] w.top

/-- `group_words_into_lines` of `redact_extract_optimized.py` (lines
11-41): sort by `(top, x0)`, then cluster under the running-average
tolerance test. -/
def group_words_into_lines (words : List Word) (line_tol : ℚ) :
    List (List Word) :=
  match sortBy wordLeTopX0 words with
  | [] => []
  | w :: ws => groupGo line_tol ws [w] w.top

/-- Arithmetic mean of a cluster's `top` values. -/
def meanTop (cluster : List Word) : ℚ :=
  (cluster.map (fun w => w.top)).sum / (cluster.length : ℚ)

/-- Modelled from the spec's words (§4.5 phase 1, claim C4): a word joins
the current cluster iff its `top` is within `lineTolerance` of the
cluster's average `top`, recomputed here from scratch as the mean. -/
def groupSpecGo (line_tol : ℚ) : List Word → List Word → List (List Word)
  | [], current => [current]
  | w :: ws, current =>
    if |w.top - meanTop current| ≤ line_tol then
      groupSpecGo line_tol ws (current ++ [w])
    else
      current :: groupSpecGo line_tol ws [w]

/-- The claim's clustering, over the `(top, x0)`-sorted word list. -/
def group_lines_spec (words : List Word) (line_tol : ℚ) :
    List (List Word) :=
  match sortBy wordLeTopX0 words with
  | [] => []
  | w :: ws => groupSpecGo line_tol ws [w]

/-- The code's incrementally maintained `current_top` IS the mean of the
current cluster's tops, so the two walks agree. -/
lemma groupGo_eq_spec (line_tol : ℚ) :
    ∀ (ws current : List Word) (ctop : ℚ), current ≠ [] →
      ctop = meanTop current →
      groupGo line_tol ws current ctop = groupSpecGo line_tol ws current := by
  intro ws
  induction ws with
  | nil => intro current ctop _ _; rfl
  | cons w ws ih =>
    intro current ctop hne hmean
    simp only [groupGo, groupSpecGo, hmean]
    by_cases h : |w.top - meanTop current| ≤ line_tol
    · rw [if_pos h, if_pos h]
      refine ih (current ++ [w]) _ (by simp) ?_
      unfold meanTop
      have hlen0 : (current.length : ℚ) ≠ 0 := by
        have h0 : current.length ≠ 0 := by
          cases current with
          | nil => exact absurd rfl hne
          | cons a l => simp
        exact_mod_cast h0
      rw [List.map_append, List.sum_append, List.length_append]
      push_cast
      field_simp
    · rw [if_neg h, if_neg h]
      congr 1
      refine ih [w] w.top (by simp) ?_
      simp [meanTop]

/-- C4: after the `(top, x0)` sort, a word joins the current cluster iff
its `top` is within `lineTolerance` of the cluster's running-average `top`
(which equals the mean of the cluster's tops and is updated with each
joined word); otherwise the cluster closes and a new one opens. -/
theorem C4_line_clustering (words : List Word) (line_tol : ℚ) :
    group_words_into_lines words line_tol =
      group_lines_spec words line_tol := by
  unfold group_words_into_lines group_lines_spec
  cases h : sortBy wordLeTopX0 words with
  | nil => rfl
  | cons w ws =>
    exact groupGo_eq_spec line_tol ws [w] w.top (by simp) (by simp [meanTop])

/-- Banker's rounding (round half to even) — the semantics of Python 3's
built-in `round` used by `build_line_text`. -/
def pythonRound (q : ℚ) : ℤ :=
  let n := ⌊q⌋
  let frac := q - n
  if frac < 1/2 then n
  else if 1/2 < frac then n + 1
  else if n % 2 = 0 then n else n + 1

/-- The word-pair loop of `build_line_text` (`redact_extract_optimized.py`
lines 82-99): `gap = x0 - prev_x1`; a positive gap inserts
`max(min_spaces, round(gap / max(0.5, space_unit_pts)))` spaces, a
non-positive gap inserts one space only when shallower than
`0.3 × space_unit_pts`; `prev_x1` and `last_x1` advance by running
maximum (`prev_x1 = max(prev_x1, x1)`). -/
def buildGo (space_unit_pts : ℚ) (min_spaces : ℤ) :
    List Word → ℚ → ℚ → List String → List String × ℚ × ℚ
  | [], prev_x1, last_x1, parts => (parts, prev_x1, last_x1)
  | w :: ws, prev_x1, last_x1, parts =>
    let x0 := w.x0
    let x1 := w.x1
    let gap := x0 - prev_x1
    let sep : String :=
      if gap > 0 then
        String.mk (List.replicate
          (max min_spaces
            (pythonRound (gap / max (1/2) space_unit_pts))).toNat ' ')
      else
        if gap > -(space_unit_pts * (3/10)) then " " else ""
    buildGo space_unit_pts min_spaces ws (max prev_x1 x1) (max last_x1 x1)
      (parts ++ [sep, w.text])

/-- The tuple `build_line_text` returns:
`(text, x0, x1, top, font_size_est)`. -/
structure LineOut where
  text : String
  x0 : ℚ
  x1 : ℚ
  top : ℚ
  font_size : ℚ
deriving DecidableEq

/-- `build_line_text` of `redact_extract_optimized.py` (lines 44-101):
sort by `x0`; the font size estimate is the index-`n/2` element of the
sorted sizes when any word has one, else of the sorted per-word bbox
heights `max 6 (bottom - top)` (with `bottom` defaulting to `top + 10`),
else 10; the line `top` is the index-`n/2` element of the sorted tops;
then the word-pair loop over the tail.  The Python code raises
`IndexError` on an empty input (never produced by
`group_words_into_lines`); the `[]` case here returns a dummy. -/
def build_line_text (line_words : List Word) (space_unit_pts : ℚ)
    (min_spaces : ℤ) : LineOut :=
  match sortBy wordLeX0 line_words with
  | [] => ⟨"", 0, 0, 0, 10⟩
  | w0 :: rest =>
    let sorted_words := w0 :: rest
    let sizes := sorted_words.filterMap (fun w => w.size)
    let font_size : ℚ :=
      if sizes.isEmpty then
        let hs := sorted_words.map (fun w =>
          max 6 ((w.bottom.getD (w.top + 10)) - w.top))
        if hs.isEmpty then 10 else (sortQ hs).getD (hs.length / 2) 0
      else (sortQ sizes).getD (sizes.length / 2) 0
    let top_med := (sortQ (sorted_words.map (fun w => w.top))).getD
      (sorted_words.length / 2) 0
    let first_x0 := w0.x0
    let res := buildGo space_unit_pts min_spaces rest w0.x1 w0.x1 [w0.text]
    ⟨String.join res.1, first_x0, res.2.2, top_med, font_size⟩

/-- Maximum `x1` over the first word and a list of later words. -/
def maxX1 (w0 : Word) (prev : List Word) : ℚ :=
  prev.foldl (fun m v => max m v.x1) w0.x1

/-- The separator string inserted for a signed gap. -/
def sepSpec (gap space_unit_pts : ℚ) (min_spaces : ℤ) : String :=
  if gap > 0 then
    String.mk (List.replicate
      (max min_spaces
        (pythonRound (gap / max (1/2) space_unit_pts))).toNat ' ')
  else
    if gap > -(space_unit_pts * (3/10)) then " " else ""

/-- Modelled from the amended claim: walking the x0-sorted cluster, the
gap before each word is its `x0` minus the maximum `x1` over ALL preceding
words of the cluster. -/
def lineTextSpecGo (space_unit_pts : ℚ) (min_spaces : ℤ) (w0 : Word) :
    List Word → List Word → String
  | _, [] => ""
  | prev, w :: ws =>
      sepSpec (w.x0 - maxX1 w0 prev) space_unit_pts min_spaces ++ w.text ++
        lineTextSpecGo space_unit_pts min_spaces w0 (prev ++ [w]) ws

/-- The amended claim's line text for a sorted cluster. -/
def lineTextSpec (space_unit_pts : ℚ) (min_spaces : ℤ) :
    List Word → String
  | [] => ""
  | w0 :: ws => w0.text ++ lineTextSpecGo space_unit_pts min_spaces w0 [] ws

/-- Modelled from the claim's words (C3 as stated): the gap before each
word is its `x0` minus the IMMEDIATELY preceding word's `x1`. -/
def lineTextClaimGo (space_unit_pts : ℚ) (min_spaces : ℤ) :
    Word → List Word → String
  | _, [] => ""
  | prev, w :: ws =>
      sepSpec (w.x0 - prev.x1) space_unit_pts min_spaces ++ w.text ++
        lineTextClaimGo space_unit_pts min_spaces w ws

/-- The claim's (as stated) line text for a sorted cluster. -/
def lineTextClaim (space_unit_pts : ℚ) (min_spaces : ℤ) :
    List Word → String
  | [] => ""
  | w0 :: ws => w0.text ++ lineTextClaimGo space_unit_pts min_spaces w0 ws

/-- `String.join` distributes over list append. -/
lemma strJoin_append (l₁ l₂ : List String) :
    String.join (l₁ ++ l₂) = String.join l₁ ++ String.join l₂ := by
  induction l₁ with
  | nil =>
    rw [List.nil_append, show String.join [] = "" from rfl,
      String.empty_append]
  | cons s l ih =>
    rw [List.cons_append, strJoin_cons, strJoin_cons, ih,
      String.append_assoc]

/-- The fold of `buildGo` started at the running maximum of the previous
words' `x1` produces exactly the spec text with running-maximum gaps. -/
lemma buildGo_join (space_unit_pts : ℚ) (min_spaces : ℤ) (w0 : Word) :
    ∀ (rest prev : List Word) (last : ℚ) (parts : List String),
      String.join
        (buildGo space_unit_pts min_spaces rest (maxX1 w0 prev) last
          parts).1 =
      String.join parts ++
        lineTextSpecGo space_unit_pts min_spaces w0 prev rest := by
  intro rest
  induction rest with
  | nil =>
    intro prev last parts
    simp [buildGo, lineTextSpecGo, String.append_empty]
  | cons w ws ih =>
    intro prev last parts
    simp only [buildGo, lineTextSpecGo]
    have hmax : max (maxX1 w0 prev) w.x1 = maxX1 w0 (prev ++ [w]) := by
      unfold maxX1
      rw [List.foldl_append]
      rfl
    rw [hmax, ih, strJoin_append, strJoin_cons, strJoin_cons,
      show String.join [] = "" from rfl, String.append_empty]
    simp only [sepSpec, String.append_assoc]

/-- C3 (amended): the text of a rebuilt line equals the spec walk over the
x0-sorted cluster in which the gap before each word is its `x0` minus the
running MAXIMUM of `x1` over all preceding words (not the immediately
preceding word's `x1`); positive gaps insert
`round(gap / max(0.5, spaceUnitPts))` spaces (banker's rounding), floored
at `minSpaces`; non-positive gaps insert one space iff
`gap > -0.3 × spaceUnitPts`. -/
theorem C3_spacing (line_words : List Word) (space_unit_pts : ℚ)
    (min_spaces : ℤ) :
    (build_line_text line_words space_unit_pts min_spaces).text =
      lineTextSpec space_unit_pts min_spaces
        (sortBy wordLeX0 line_words) := by
  unfold build_line_text
  cases h : sortBy wordLeX0 line_words with
  | nil => rfl
  | cons w0 rest =>
    dsimp only
    simp only [lineTextSpec]
    have hb := buildGo_join space_unit_pts min_spaces w0 rest [] w0.x1
      [w0.text]
    simp only [maxX1, List.foldl_nil] at hb
    rw [strJoin_cons, show String.join [] = "" from rfl,
      String.append_empty] at hb
    exact hb

/-- Word `a` with a long bbox (x1=100) followed by two short words. -/
def wordsC3 : List Word :=
  [⟨"a", 0, 100, 0, none, none⟩, ⟨"b", 10, 20, 0, none, none⟩,
   ⟨"c", 30, 40, 0, none, none⟩]

/-- C3 (counterexample): with a preceding word whose `x1` reaches past its
successors, the code's running-maximum gap (`30 - 100 = -70`, deep overlap,
no space) differs from the claim's immediate-predecessor gap
(`30 - 20 = 10`, three spaces). -/
theorem C3_counterexample :
    (build_line_text wordsC3 3 1).text = "abc" ∧
    lineTextClaim 3 1 wordsC3 = "ab   c" ∧
    ("abc" : String) ≠ "ab   c" := by
  refine ⟨?_, ?_, ?_⟩ <;> with_unfolding_all decide

/-- One output line of `process_single_page`
(`redact_extract_optimized.py` lines 127-134):
`(line_text, x0, top, font_size)`. -/
structure PLine where
  text : String
  x0 : ℚ
  top : ℚ
  font_size : ℚ
deriving DecidableEq

/-- The per-page line assembly of `process_single_page`: cluster the words,
rebuild each cluster's text, and keep only lines whose text is not blank
(`if line_text.strip()`). -/
def page_lines (words : List Word) (line_tol space_unit_pts : ℚ)
    (min_spaces : ℤ) : List PLine :=
  (group_words_into_lines words line_tol).filterMap (fun lw =>
    let lo := build_line_text lw space_unit_pts min_spaces
    if lo.text.trim.isEmpty then none
    else some ⟨lo.text, lo.x0, lo.top, lo.font_size⟩)

/-- The two words of end-to-end scenario 3. -/
def wHello : Word := ⟨"Hello", 0, 30, 100, none, none⟩

/-- The second word of end-to-end scenario 3 (top = 100.5). -/
def wWorld : Word := ⟨"World", 40, 70, 201/2, none, none⟩

/-- C7 (counterexample): the single reconstructed line's `top` is 100.5 —
the element at index `n/2` of the sorted tops (upper median), not the
running-average 100.25 the claim states. -/
theorem C7_counterexample :
    (page_lines [wHello, wWorld] 2 5 1).map (fun lo => lo.top) = [201/2] ∧
    ((201 : ℚ)/2) ≠ 401/4 := by
  constructor <;> with_unfolding_all decide

/-- C7 (amended): the two scenario words cluster into exactly one line with
text `"Hello  World"` (two inserted spaces: gap 10, round(10/5) = 2),
`x0 = 0`, `top = 100.5` (the index-`n/2` element of the sorted tops) and
font size 10 (the bbox-height fallback). -/
theorem C7_hello_world :
    page_lines [wHello, wWorld] 2 5 1 =
      [⟨"Hello  World", 0, 201/2, 10⟩] := by
  with_unfolding_all decide
